import Mathlib

/-!
Verification development for `chess_zero/agent/model_chess.py`: a shallow
embedding of the `ChessModel` / `BetterChessModel` classes (network-graph
construction and model persistence with digest-based versioning and a
best-effort FTP mirror), together with theorems settling the specified
properties.

Modelling conventions:
* A Keras computation graph is embedded symbolically: `Layer` records the
  constructor arguments of each Keras layer call, `KTensor` is the DAG of
  layer applications, `KModel` mirrors `Model(in_x, [policy_out, value_out])`.
* The local filesystem is an association list from paths to byte lists; a
  write shadows earlier entries (`fsWrite` conses, `fsRead` takes the newest).
* A persisted Keras model is represented by its two serialized artifacts
  (`graphConfig` for `json.dump(model.get_config())`, `weights` for
  `save_weights`); at this granularity `Model.from_config` composed with
  `load_weights` is the inverse of serialization on genuine artifact bytes.
  `ChessModel.loadChecked` refines `ChessModel.load` by additionally
  tracking the deserialization error path: `json.load`, `Model.from_config`
  and `load_weights` raise on malformed content (such as the truncated
  bytes a failed fetch leaves behind), and which byte pairs deserialize
  cleanly is an external-library fact carried as a predicate parameter
  `parses`, just as the SHA-256 primitive is carried as `hash`.
* `hashlib.sha256(...).hexdigest()` is an external primitive and is carried
  as an explicit function parameter `hash : Bytes -> String`.
* The FTP session inside `load` is driven by an `FtpEnv` value describing how
  far the transfer gets before failing; the local side-effects of each stage
  (truncating opens via `open(path, 'wb')`) are applied accordingly.
-/

namespace ModelChess

/-- Raw file contents: a list of byte values. -/
abbrev Bytes := List Nat

/-- The local filesystem: newest-first association list of path and contents. -/
abbrev FS := List (String × Bytes)

/-- Read a file: first (newest) entry for the path, `none` when absent
(`os.path.exists` is `(fsRead fs p).isSome`). -/
def fsRead : FS → String → Option Bytes
  | [], _ => none
  | (q, b) :: rest, p => if q = p then some b else fsRead rest p

/-- Writing a file shadows any earlier entry at the same path
(`open(path, 'wb')` / `open(path, 'wt')` followed by writing `b`). -/
def fsWrite (fs : FS) (p : String) (b : Bytes) : FS :=
  (p, b) :: fs

/-- Modelled from the spec: the architecture hyperparameters read off
`config.model` by `model_chess.py` (the `Config` class itself lives in
`chess_zero/config.py`, which is not part of the sources under review). -/
structure ModelConfig where
  cnn_filter_num : Nat
  cnn_first_filter_size : Nat
  cnn_filter_size : Nat
  res_layer_num : Nat
  l2_reg : ℚ
  value_fc_size : Nat
  distributed : Bool

/-- Modelled from the spec: the resource paths and FTP credentials read off
`config.resource`.  `model_best_weight_path` is the canonical best-model
weight path the spec pairs with `model_best_config_path`; `model_chess.py`
itself never consults it in the distributed guard. -/
structure ResourceConfig where
  model_best_config_path : String
  model_best_weight_path : String
  model_best_distributed_ftp_server : String
  model_best_distributed_ftp_user : String
  model_best_distributed_ftp_password : String
  model_best_distributed_ftp_remote_path : String

/-- Modelled from the spec: the slice of `Config` consumed by the model. -/
structure Config where
  model : ModelConfig
  resource : ResourceConfig
  n_labels : Nat

/-- Keras activation functions occurring in `model_chess.py`. -/
inductive Activation
  | relu
  | softmax
  | tanh
  | linear
  deriving Repr, DecidableEq

/-- One Keras layer call, recording the constructor arguments used in the
source (filter counts, kernel sizes, padding, data format, bias flag, L2
regularization strength when present, and the layer name when given). -/
inductive Layer
  | conv2D (filters : Nat) (kernel : Nat × Nat) (padSame : Bool)
      (data_format : String) (useBias : Bool) (l2reg : Option ℚ)
      (lname : Option String)
  | separableConv2D (filters : Nat) (kernel : Nat × Nat) (padSame : Bool)
      (data_format : String) (useBias : Bool) (lname : Option String)
  | batchNorm (axis : Nat) (lname : Option String)
  | activation (act : Activation) (lname : Option String)
  | leakyReLU (alpha : ℚ)
  | flatten (lname : Option String)
  | dense (units : Nat) (l2reg : Option ℚ) (act : Activation)
      (lname : Option String)
  | add (lname : Option String)
  | concatenate (axis : Nat)
  deriving Repr, DecidableEq

/-- A symbolic Keras tensor: either the `Input` placeholder or the result of
applying a layer to a list of argument tensors. -/
inductive KTensor
  | input (shape : List Nat)
  | app (l : Layer) (args : List KTensor)

/-- The layer that produced a tensor, when it is not the input placeholder. -/
def KTensor.outLayer : KTensor → Option Layer
  | .input _ => none
  | .app l _ => some l

/-- `Model(in_x, [policy_out, value_out], name=...)`. -/
structure KModel where
  input : KTensor
  outputs : List KTensor
  mname : String

/-- A deserialized Keras model, represented by its serialized architecture
(`get_config` as JSON bytes) and its weight blob (`save_weights` bytes). -/
structure KerasModel where
  graphConfig : Bytes
  weights : Bytes
  deriving Repr, DecidableEq

/-- The mutable attributes of a `ChessModel` instance touched by
`load`/`save` (`self.model` and `self.digest`; `self.config` is immutable
and passed separately, `self.api` is out of scope). -/
structure ChessModelState where
  model : Option KerasModel
  digest : Option String
  deriving Repr, DecidableEq

/-- `ChessModel.__init__`: `self.model = None`, `self.digest = None`. -/
def ChessModel.initState : ChessModelState :=
  { model := none, digest := none }

/-- How far the FTP fetch inside `ChessModel.load` gets.  `noConnect`: the
`ftplib.FTP(...)` constructor or `cwd` raises, before any local file is
opened.  `failDuringConfig got`: the config file was opened with
`open(config_path, 'wb')` (truncated) and `got` bytes were delivered before
`retrbinary` raised.  `failDuringWeight cfgBytes got`: the config retrieval
completed with `cfgBytes`, the weight file was truncated and `got` bytes
delivered before the failure.  `ok cfgBytes wBytes`: both transfers
completed. -/
inductive FtpEnv
  | noConnect
  | failDuringConfig (got : Bytes)
  | failDuringWeight (cfgBytes got : Bytes)
  | ok (cfgBytes wBytes : Bytes)

/-- Local filesystem effect of the FTP fetch attempt in `ChessModel.load`:
each local file is truncated by `open(path, 'wb')` immediately before its own
`retrbinary`, so the bytes present afterwards are whatever stage the
transfer reached. -/
def applyFetch (env : FtpEnv) (config_path weight_path : String) (fs : FS) :
    FS :=
  match env with
  | .noConnect => fs
  | .failDuringConfig got => fsWrite fs config_path got
  | .failDuringWeight cb got =>
      fsWrite (fsWrite fs config_path cb) weight_path got
  | .ok cb wb => fsWrite (fsWrite fs config_path cb) weight_path wb

/-- `ChessModel.fetch_digest`: SHA-256 hex digest of the file's raw bytes
when the file exists, `None` (fall-through) otherwise.  The external
`hashlib` primitive is the parameter `hash`. -/
def ChessModel.fetch_digest (hash : Bytes → String) (fs : FS)
    (weight_path : String) : Option String :=
  match fsRead fs weight_path with
  | some b => some (hash b)
  | none => none

/-- The guard `mc.distributed and config_path ==
resources.model_best_config_path` shared by `load` (remote fetch) and
`save` (remote push).  Note it compares only the CONFIG path; the weight
path is not consulted. -/
def ChessModel.bestGuard (cfg : Config) (config_path : String) : Bool :=
  cfg.model.distributed &&
    decide (config_path = cfg.resource.model_best_config_path)

/-- The local filesystem after the fetch phase of `ChessModel.load`: the
FTP transfer is attempted exactly when the guard holds, and its effects are
those of the reached stage. -/
def ChessModel.loadFetchFS (cfg : Config) (config_path weight_path : String)
    (env : FtpEnv) (fs : FS) : FS :=
  if ChessModel.bestGuard cfg config_path then
    applyFetch env config_path weight_path fs
  else fs

/-- Result of `ChessModel.load`: the updated instance state, the local
filesystem after any fetch side-effects, the boolean return value, and
whether the distributed remote fetch was attempted (the `if` guard held). -/
structure LoadResult where
  state : ChessModelState
  fs : FS
  ok : Bool
  remoteAttempted : Bool
  deriving Repr, DecidableEq

/-- `ChessModel.load(config_path, weight_path)`.  The guard
`mc.distributed and config_path == resources.model_best_config_path`
decides the fetch attempt; any exception inside the fetch `try` block is
swallowed (all `FtpEnv` outcomes fall through to the local branch).  Then
the local branch checks `os.path.exists` on both paths: when both files
exist the model is rebuilt from their contents, the digest recomputed and
`True` returned; otherwise `False` is returned with the state untouched. -/
def ChessModel.load (hash : Bytes → String) (cfg : Config)
    (st : ChessModelState) (config_path weight_path : String) (env : FtpEnv)
    (fs : FS) : LoadResult :=
  match fsRead (ChessModel.loadFetchFS cfg config_path weight_path env fs)
          config_path,
        fsRead (ChessModel.loadFetchFS cfg config_path weight_path env fs)
          weight_path with
  | some cb, some wb =>
      { state := { st with
          model := some { graphConfig := cb, weights := wb }
          digest := ChessModel.fetch_digest hash
            (ChessModel.loadFetchFS cfg config_path weight_path env fs)
            weight_path }
        fs := ChessModel.loadFetchFS cfg config_path weight_path env fs
        ok := true
        remoteAttempted := ChessModel.bestGuard cfg config_path }
  | some _, none =>
      { state := st
        fs := ChessModel.loadFetchFS cfg config_path weight_path env fs
        ok := false
        remoteAttempted := ChessModel.bestGuard cfg config_path }
  | none, some _ =>
      { state := st
        fs := ChessModel.loadFetchFS cfg config_path weight_path env fs
        ok := false
        remoteAttempted := ChessModel.bestGuard cfg config_path }
  | none, none =>
      { state := st
        fs := ChessModel.loadFetchFS cfg config_path weight_path env fs
        ok := false
        remoteAttempted := ChessModel.bestGuard cfg config_path }

/-- Refinement of `ChessModel.load` that keeps the deserialization error
path of the local branch: `self.model = Model.from_config(json.load(f))`
followed by `self.model.load_weights(weight_path)` raises on malformed
content (for example the truncated bytes a mid-transfer fetch failure
leaves behind), and that exception propagates out of `load()` — it is NOT
covered by the fetch's `try/except`.  `parses cb wb` is the
external-library fact that architecture bytes `cb` deserialize and weight
bytes `wb` load cleanly against them; `none` models the exception
escaping `load()`.  On every other path `loadChecked` returns exactly what
`ChessModel.load` returns (`ChessModel.loadChecked_refines_load`). -/
def ChessModel.loadChecked (hash : Bytes → String)
    (parses : Bytes → Bytes → Bool) (cfg : Config) (st : ChessModelState)
    (config_path weight_path : String) (env : FtpEnv) (fs : FS) :
    Option LoadResult :=
  match fsRead (ChessModel.loadFetchFS cfg config_path weight_path env fs)
          config_path,
        fsRead (ChessModel.loadFetchFS cfg config_path weight_path env fs)
          weight_path with
  | some cb, some wb =>
      if parses cb wb then
        some
          { state := { st with
              model := some { graphConfig := cb, weights := wb }
              digest := ChessModel.fetch_digest hash
                (ChessModel.loadFetchFS cfg config_path weight_path env fs)
                weight_path }
            fs := ChessModel.loadFetchFS cfg config_path weight_path env fs
            ok := true
            remoteAttempted := ChessModel.bestGuard cfg config_path }
      else none
  | some _, none =>
      some
        { state := st
          fs := ChessModel.loadFetchFS cfg config_path weight_path env fs
          ok := false
          remoteAttempted := ChessModel.bestGuard cfg config_path }
  | none, some _ =>
      some
        { state := st
          fs := ChessModel.loadFetchFS cfg config_path weight_path env fs
          ok := false
          remoteAttempted := ChessModel.bestGuard cfg config_path }
  | none, none =>
      some
        { state := st
          fs := ChessModel.loadFetchFS cfg config_path weight_path env fs
          ok := false
          remoteAttempted := ChessModel.bestGuard cfg config_path }

/-- Result of `ChessModel.save`: updated state, filesystem, and whether the
remote push was attempted. -/
structure SaveResult where
  state : ChessModelState
  fs : FS
  remoteAttempted : Bool
  deriving Repr, DecidableEq

/-- `ChessModel.save(config_path, weight_path)`: unconditionally writes the
serialized architecture to `config_path` and the weights to `weight_path`
(no existence check), recomputes the digest from the weight file just
written, then — under the same guard as `load` — attempts the best-effort
remote push (which has no local filesystem effect, and whose failures are
swallowed).  `none` models the `AttributeError` raised when `self.model` is
still `None`. -/
def ChessModel.save (hash : Bytes → String) (cfg : Config)
    (st : ChessModelState) (config_path weight_path : String) (fs : FS) :
    Option SaveResult :=
  match st.model with
  | none => none
  | some m =>
      some
        { state := { st with
            digest := ChessModel.fetch_digest hash
              (fsWrite (fsWrite fs config_path m.graphConfig) weight_path
                m.weights) weight_path }
          fs := fsWrite (fsWrite fs config_path m.graphConfig) weight_path
            m.weights
          remoteAttempted := ChessModel.bestGuard cfg config_path }

/-- `ChessModel._build_residual_block(x, index)`. -/
def ChessModel.build_residual_block (mc : ModelConfig) (x : KTensor)
    (index : Nat) : KTensor :=
  let in_x := x
  let res_name := "res" ++ toString index
  let x := KTensor.app
    (Layer.conv2D mc.cnn_filter_num (mc.cnn_filter_size, mc.cnn_filter_size)
      true "channels_first" false (some mc.l2_reg)
      (some (res_name ++ "_conv1-" ++ toString mc.cnn_filter_size ++ "-" ++
        toString mc.cnn_filter_num))) [x]
  let x := KTensor.app (Layer.batchNorm 1 (some (res_name ++ "_batchnorm1")))
    [x]
  let x := KTensor.app
    (Layer.activation .relu (some (res_name ++ "_relu1"))) [x]
  let x := KTensor.app
    (Layer.conv2D mc.cnn_filter_num (mc.cnn_filter_size, mc.cnn_filter_size)
      true "channels_first" false (some mc.l2_reg)
      (some (res_name ++ "_conv2-" ++ toString mc.cnn_filter_size ++ "-" ++
        toString mc.cnn_filter_num))) [x]
  let x := KTensor.app
    (Layer.batchNorm 1 (some ("res" ++ toString index ++ "_batchnorm2"))) [x]
  let x := KTensor.app (Layer.add (some (res_name ++ "_add"))) [in_x, x]
  KTensor.app (Layer.activation .relu (some (res_name ++ "_relu2"))) [x]

/-- The loop `for i in range(mc.res_layer_num): x = _build_residual_block(x,
i + 1)`: blocks are applied with indices 1..n in increasing order. -/
def ChessModel.applyResBlocks (mc : ModelConfig) (x : KTensor) : Nat →
    KTensor
  | 0 => x
  | n + 1 =>
      ChessModel.build_residual_block mc (ChessModel.applyResBlocks mc x n)
        (n + 1)

/-- `ChessModel.build()`: the base two-headed residual network. -/
def ChessModel.build (config : Config) : KModel :=
  let mc := config.model
  let in_x := KTensor.input [18, 8, 8]
  let x := in_x
  let x := KTensor.app
    (Layer.conv2D mc.cnn_filter_num
      (mc.cnn_first_filter_size, mc.cnn_first_filter_size) true
      "channels_first" false (some mc.l2_reg)
      (some ("input_conv-" ++ toString mc.cnn_first_filter_size ++ "-" ++
        toString mc.cnn_filter_num))) [x]
  let x := KTensor.app (Layer.batchNorm 1 (some "input_batchnorm")) [x]
  let x := KTensor.app (Layer.activation .relu (some "input_relu")) [x]
  let x := ChessModel.applyResBlocks mc x mc.res_layer_num
  let res_out := x
  let x := KTensor.app
    (Layer.conv2D 2 (1, 1) false "channels_first" false (some mc.l2_reg)
      (some "policy_conv-1-2")) [res_out]
  let x := KTensor.app (Layer.batchNorm 1 (some "policy_batchnorm")) [x]
  let x := KTensor.app (Layer.activation .relu (some "policy_relu")) [x]
  let x := KTensor.app (Layer.flatten (some "policy_flatten")) [x]
  let policy_out := KTensor.app
    (Layer.dense config.n_labels (some mc.l2_reg) .softmax
      (some "policy_out")) [x]
  let x := KTensor.app
    (Layer.conv2D 4 (1, 1) false "channels_first" false (some mc.l2_reg)
      (some "value_conv-1-4")) [res_out]
  let x := KTensor.app (Layer.batchNorm 1 (some "value_batchnorm")) [x]
  let x := KTensor.app (Layer.activation .relu (some "value_relu")) [x]
  let x := KTensor.app (Layer.flatten (some "value_flatten")) [x]
  let x := KTensor.app
    (Layer.dense mc.value_fc_size (some mc.l2_reg) .relu
      (some "value_dense")) [x]
  let value_out := KTensor.app
    (Layer.dense 1 (some mc.l2_reg) .tanh (some "value_out")) [x]
  { input := in_x, outputs := [policy_out, value_out],
    mname := "chess_model" }

/-- The instance attributes set by `BetterChessModel.__init__`.  Channel
widths are Python integers; `conv5_channels` is defined by integer
subtraction from the total budget. -/
structure BetterChessModel where
  data_format : String
  blocks_count : Nat
  channels : Int
  conv_along_axis_channels : Int
  conv15_channels : Int
  conv5_channels : Int
  leaky_alpha : ℚ
  deriving Repr, DecidableEq

/-- `BetterChessModel.__init__`: the hard-coded attribute values. -/
def BetterChessModel.init : BetterChessModel :=
  let channels : Int := 128
  let conv_along_axis_channels : Int := 16
  let conv15_channels : Int := 4
  { data_format := "channels_first"
    blocks_count := 6
    channels := channels
    conv_along_axis_channels := conv_along_axis_channels
    conv15_channels := conv15_channels
    conv5_channels :=
      channels - conv_along_axis_channels * 2 - conv15_channels
    leaky_alpha := 3 / 10 }

/-- In Python, the value returned by applying a Keras layer is a backend
tensor, and tensors are not callable: calling one — as
`BetterChessModel.pointwise_and_separable` does — raises `TypeError`.
Modelled as `none`. -/
def KTensor.callAsLayer : KTensor → KTensor → Option KTensor :=
  fun _ _ => none

/-- `BetterChessModel.pointwise_conv`: 1x1 conv, batch norm, leaky relu.
Channel counts are Python ints, converted to the layer's width field. -/
def BetterChessModel.pointwise_conv (b : BetterChessModel) (layer : KTensor)
    (channels : Int) : KTensor :=
  let layer := KTensor.app
    (Layer.conv2D channels.toNat (1, 1) true b.data_format false none none)
    [layer]
  let layer := KTensor.app (Layer.batchNorm 1 none) [layer]
  KTensor.app (Layer.leakyReLU b.leaky_alpha) [layer]

/-- `BetterChessModel.separable_conv`: separable conv, batch norm, leaky
relu. -/
def BetterChessModel.separable_conv (b : BetterChessModel) (layer : KTensor)
    (channels : Int) (kernel : Nat × Nat) : KTensor :=
  let layer := KTensor.app
    (Layer.separableConv2D channels.toNat kernel true b.data_format false
      none) [layer]
  let layer := KTensor.app (Layer.batchNorm 1 none) [layer]
  KTensor.app (Layer.leakyReLU b.leaky_alpha) [layer]

/-- `BetterChessModel.pointwise_and_separable`: the source applies the
*tensor* returned by `pointwise_conv` (and then by `separable_conv`) to
`layer` again — `self.pointwise_conv(layer, channels)(layer)` — which
raises `TypeError` at graph-construction time. -/
def BetterChessModel.pointwise_and_separable (b : BetterChessModel)
    (layer : KTensor) (channels : Int) (kernel : Nat × Nat) :
    Option KTensor := do
  let layer ← KTensor.callAsLayer (b.pointwise_conv layer channels) layer
  KTensor.callAsLayer (b.separable_conv layer channels kernel) layer

/-- `BetterChessModel.custom_layer`: four parallel branches concatenated
along the channel axis. -/
def BetterChessModel.custom_layer (b : BetterChessModel)
    (previous : KTensor) : Option KTensor := do
  let conv5 := b.separable_conv previous b.conv5_channels (5, 5)
  let conv_along1 ←
    b.pointwise_and_separable previous b.conv_along_axis_channels (1, 15)
  let conv_along2 ←
    b.pointwise_and_separable previous b.conv_along_axis_channels (15, 1)
  let conv15 ←
    b.pointwise_and_separable previous b.conv15_channels (15, 15)
  pure (KTensor.app (Layer.concatenate 1)
    [conv5, conv15, conv_along1, conv_along2])

/-- The loop `for i in range(self.blocks_count): x = self.custom_layer(x)`. -/
def BetterChessModel.applyCustomLayers (b : BetterChessModel) (x : KTensor) :
    Nat → Option KTensor
  | 0 => pure x
  | n + 1 => do
      let y ← BetterChessModel.applyCustomLayers b x n
      b.custom_layer y

/-- `BetterChessModel.build()`: pointwise stem, custom blocks, then policy
and value heads (no L2 terms; linear dense followed by leaky relu in the
value head). -/
def BetterChessModel.build (b : BetterChessModel) (config : Config) :
    Option KModel := do
  let mc := config.model
  let in_x := KTensor.input [18, 8, 8]
  let x := b.pointwise_conv in_x b.channels
  let x ← b.applyCustomLayers x b.blocks_count
  let res_out := x
  let x := b.pointwise_conv res_out 2
  let x := KTensor.app (Layer.flatten (some "policy_flatten")) [x]
  let policy_out := KTensor.app
    (Layer.dense config.n_labels none .softmax (some "policy_out")) [x]
  let x := b.pointwise_conv res_out 4
  let x := KTensor.app (Layer.flatten (some "value_flatten")) [x]
  let x := KTensor.app
    (Layer.dense mc.value_fc_size none .linear (some "value_dense")) [x]
  let x := KTensor.app (Layer.leakyReLU b.leaky_alpha) [x]
  let value_out := KTensor.app
    (Layer.dense 1 none .tanh (some "value_out")) [x]
  pure { input := in_x, outputs := [policy_out, value_out],
         mname := "chess_model" }

/-- Numeric semantics of the softmax activation over the reals. -/
noncomputable def softmax (z : List ℝ) : List ℝ :=
  z.map (fun zi => Real.exp zi / (z.map Real.exp).sum)

/-- Numeric semantics of each activation function, applied to a
pre-activation vector. -/
noncomputable def applyActivation : Activation → List ℝ → List ℝ
  | .relu, z => z.map (fun t => max t 0)
  | .softmax, z => softmax z
  | .tanh, z => z.map Real.tanh
  | .linear, z => z

/-- A concrete non-distributed configuration (hyperparameter values as in
the repository defaults; 1968 is the standard move-label count) used to
instantiate theorems on concrete inputs. -/
def demoConfig : Config :=
  { model :=
      { cnn_filter_num := 256
        cnn_first_filter_size := 5
        cnn_filter_size := 3
        res_layer_num := 7
        l2_reg := 1 / 10000
        value_fc_size := 256
        distributed := false }
    resource :=
      { model_best_config_path := "bestcfg"
        model_best_weight_path := "bestw"
        model_best_distributed_ftp_server := "srv"
        model_best_distributed_ftp_user := "usr"
        model_best_distributed_ftp_password := "pwd"
        model_best_distributed_ftp_remote_path := "dir" }
    n_labels := 1968 }

/-- The same configuration with the distributed flag set and short
canonical best-model paths. -/
def demoConfigDistributed : Config :=
  { demoConfig with
    model := { demoConfig.model with distributed := true }
    resource := { demoConfig.resource with
      model_best_config_path := "c"
      model_best_weight_path := "w" } }

/-- A concrete stand-in for the external SHA-256 primitive, used only to
instantiate theorems that hold for every hash function. -/
def demoHash (b : Bytes) : String :=
  toString b.length

/-- A concrete instance state holding a built model with distinct
serialized-architecture and weight bytes. -/
def demoState : ChessModelState :=
  { model := some { graphConfig := [0], weights := [1] }, digest := none }

/-- A concrete stand-in for the external deserialization-success predicate
in the demo scenarios: an empty config file — exactly what a fetch that
failed before delivering any bytes leaves behind — does not parse
(`json.load` raises on empty input), while the nonempty demo artifact
bytes deserialize cleanly. -/
def demoParses (cb : Bytes) (_wb : Bytes) : Bool :=
  !cb.isEmpty

/-! ## Helper lemmas -/

theorem fsRead_fsWrite (fs : FS) (p q : String) (b : Bytes) :
    fsRead (fsWrite fs p b) q = if p = q then some b else fsRead fs q :=
  rfl

theorem fsRead_fsWrite_isSome (fs : FS) (p q : String) (b : Bytes)
    (h : (fsRead fs q).isSome) : (fsRead (fsWrite fs p b) q).isSome := by
  rw [fsRead_fsWrite]
  split <;> simp [h]

theorem fsRead_applyFetch_isSome (env : FtpEnv) (cp wp q : String) (fs : FS)
    (h : (fsRead fs q).isSome) :
    (fsRead (applyFetch env cp wp fs) q).isSome := by
  cases env with
  | noConnect => exact h
  | failDuringConfig got => exact fsRead_fsWrite_isSome _ _ _ _ h
  | failDuringWeight cb got =>
      exact fsRead_fsWrite_isSome _ _ _ _ (fsRead_fsWrite_isSome _ _ _ _ h)
  | ok cb wb =>
      exact fsRead_fsWrite_isSome _ _ _ _ (fsRead_fsWrite_isSome _ _ _ _ h)

theorem fsRead_loadFetchFS_isSome (cfg : Config) (cp wp q : String)
    (env : FtpEnv) (fs : FS) (h : (fsRead fs q).isSome) :
    (fsRead (ChessModel.loadFetchFS cfg cp wp env fs) q).isSome := by
  unfold ChessModel.loadFetchFS
  split
  · exact fsRead_applyFetch_isSome _ _ _ _ _ h
  · exact h

theorem loadFetchFS_noConnect (cfg : Config) (cp wp : String) (fs : FS) :
    ChessModel.loadFetchFS cfg cp wp FtpEnv.noConnect fs = fs := by
  unfold ChessModel.loadFetchFS
  split <;> rfl

theorem ChessModel.load_fs (hash : Bytes → String) (cfg : Config)
    (st : ChessModelState) (cp wp : String) (env : FtpEnv) (fs : FS) :
    (ChessModel.load hash cfg st cp wp env fs).fs =
      ChessModel.loadFetchFS cfg cp wp env fs := by
  unfold ChessModel.load
  cases fsRead (ChessModel.loadFetchFS cfg cp wp env fs) cp <;>
    cases fsRead (ChessModel.loadFetchFS cfg cp wp env fs) wp <;> rfl

theorem ChessModel.load_remoteAttempted (hash : Bytes → String)
    (cfg : Config) (st : ChessModelState) (cp wp : String) (env : FtpEnv)
    (fs : FS) :
    (ChessModel.load hash cfg st cp wp env fs).remoteAttempted =
      ChessModel.bestGuard cfg cp := by
  unfold ChessModel.load
  cases fsRead (ChessModel.loadFetchFS cfg cp wp env fs) cp <;>
    cases fsRead (ChessModel.loadFetchFS cfg cp wp env fs) wp <;> rfl

theorem ChessModel.load_eq_of_both (hash : Bytes → String) (cfg : Config)
    (st : ChessModelState) (cp wp : String) (env : FtpEnv) (fs : FS)
    (cb wb : Bytes)
    (h1 : fsRead (ChessModel.loadFetchFS cfg cp wp env fs) cp = some cb)
    (h2 : fsRead (ChessModel.loadFetchFS cfg cp wp env fs) wp = some wb) :
    ChessModel.load hash cfg st cp wp env fs =
      { state := { st with
          model := some { graphConfig := cb, weights := wb }
          digest := some (hash wb) }
        fs := ChessModel.loadFetchFS cfg cp wp env fs
        ok := true
        remoteAttempted := ChessModel.bestGuard cfg cp } := by
  unfold ChessModel.load
  rw [h1, h2]
  simp [ChessModel.fetch_digest, h2]

theorem ChessModel.loadChecked_refines_load (hash : Bytes → String)
    (parses : Bytes → Bytes → Bool) (cfg : Config) (st : ChessModelState)
    (cp wp : String) (env : FtpEnv) (fs : FS) (r : LoadResult)
    (h : ChessModel.loadChecked hash parses cfg st cp wp env fs = some r) :
    ChessModel.load hash cfg st cp wp env fs = r := by
  cases h1 : fsRead (ChessModel.loadFetchFS cfg cp wp env fs) cp with
  | none =>
      cases h2 : fsRead (ChessModel.loadFetchFS cfg cp wp env fs) wp <;>
        · simp only [ChessModel.loadChecked, h1, h2,
            Option.some.injEq] at h
          simp only [ChessModel.load, h1, h2]
          exact h
  | some cb =>
      cases h2 : fsRead (ChessModel.loadFetchFS cfg cp wp env fs) wp with
      | none =>
          simp only [ChessModel.loadChecked, h1, h2,
            Option.some.injEq] at h
          simp only [ChessModel.load, h1, h2]
          exact h
      | some wb =>
          simp only [ChessModel.loadChecked, h1, h2] at h
          split at h
          · simp only [Option.some.injEq] at h
            simp only [ChessModel.load, h1, h2]
            exact h
          · exact absurd h (by simp)

/-! ## Claim theorems -/

/-- C3: `fetch_digest(weight_path)` returns the digest of the file's raw
bytes when a file exists at the path, returns `None` (not an error) when it
does not, and its result depends only on the file's content at that path, so
two calls on an unchanged file return the same hex string. -/
theorem c3_fetch_digest (hash : Bytes → String) (fs : FS) (p : String) :
    (∀ b, fsRead fs p = some b →
      ChessModel.fetch_digest hash fs p = some (hash b)) ∧
    (fsRead fs p = none → ChessModel.fetch_digest hash fs p = none) ∧
    (∀ fs2, fsRead fs2 p = fsRead fs p →
      ChessModel.fetch_digest hash fs2 p =
        ChessModel.fetch_digest hash fs p) := by
  refine ⟨fun b hb => ?_, fun hn => ?_, fun fs2 h => ?_⟩
  · simp [ChessModel.fetch_digest, hb]
  · simp [ChessModel.fetch_digest, hn]
  · simp [ChessModel.fetch_digest, h]

/-- C3 witness: the theorem instantiated on a concrete filesystem, in both
the file-present and file-absent cases. -/
theorem c3_fetch_digest_witness :
    ChessModel.fetch_digest demoHash [("w", [5, 6, 7])] "w" = some "3" ∧
    ChessModel.fetch_digest demoHash [] "w" = none := by
  refine ⟨(c3_fetch_digest demoHash [("w", [5, 6, 7])] "w").1 [5, 6, 7]
    (by decide), (c3_fetch_digest demoHash [] "w").2.1 (by decide)⟩

/-- C9: in the alternative variant, the channel widths of the four parallel
branches of every custom block (`conv5_channels`, `conv15_channels`, and
`conv_along_axis_channels` twice) sum exactly, in integer arithmetic, to the
total channel width `self.channels`. -/
theorem c9_channel_budget :
    BetterChessModel.init.conv5_channels +
        BetterChessModel.init.conv15_channels +
        BetterChessModel.init.conv_along_axis_channels +
        BetterChessModel.init.conv_along_axis_channels =
      BetterChessModel.init.channels := by
  decide

/-- C8 (the code evaluated at the failing input): building the alternative
variant never yields a graph — for every configuration, the first custom
block calls the tensor returned by `pointwise_conv` as if it were a layer,
which raises `TypeError` (modelled as `none`). -/
theorem c8_better_build_raises (config : Config) :
    BetterChessModel.init.build config = none := by
  rfl

/-- C1: `load(config_path, weight_path)` returns true iff both the
architecture file and the weight file exist locally after any distributed
fetch attempt; when one or both are missing it returns false and leaves the
previously loaded in-memory state (`self.model`, and also `self.digest`)
unchanged. -/
theorem c1_load_ok_iff (hash : Bytes → String) (cfg : Config)
    (st : ChessModelState) (config_path weight_path : String) (env : FtpEnv)
    (fs : FS) :
    ((ChessModel.load hash cfg st config_path weight_path env fs).ok =
        true ↔
      (fsRead (ChessModel.load hash cfg st config_path weight_path env
          fs).fs config_path).isSome ∧
      (fsRead (ChessModel.load hash cfg st config_path weight_path env
          fs).fs weight_path).isSome) ∧
    ((ChessModel.load hash cfg st config_path weight_path env fs).ok =
        false →
      (ChessModel.load hash cfg st config_path weight_path env fs).state =
        st) := by
  unfold ChessModel.load
  cases h1 : fsRead
      (ChessModel.loadFetchFS cfg config_path weight_path env fs)
      config_path <;>
    cases h2 : fsRead
        (ChessModel.loadFetchFS cfg config_path weight_path env fs)
        weight_path <;>
    simp [h1, h2]

/-- C1 witness: concrete instances of both directions — load succeeds on a
filesystem holding both files and fails on an empty one, leaving the state
unchanged. -/
theorem c1_load_ok_iff_witness :
    ((ChessModel.load demoHash demoConfig ChessModel.initState "c" "w"
        FtpEnv.noConnect [("c", [0]), ("w", [1])]).ok = true ↔
      (fsRead (ChessModel.load demoHash demoConfig ChessModel.initState "c"
          "w" FtpEnv.noConnect [("c", [0]), ("w", [1])]).fs "c").isSome ∧
      (fsRead (ChessModel.load demoHash demoConfig ChessModel.initState "c"
          "w" FtpEnv.noConnect [("c", [0]), ("w", [1])]).fs "w").isSome) ∧
    ((ChessModel.load demoHash demoConfig ChessModel.initState "c" "w"
        FtpEnv.noConnect [("c", [0]), ("w", [1])]).ok = false →
      (ChessModel.load demoHash demoConfig ChessModel.initState "c" "w"
          FtpEnv.noConnect [("c", [0]), ("w", [1])]).state =
        ChessModel.initState) :=
  c1_load_ok_iff demoHash demoConfig ChessModel.initState "c" "w"
    FtpEnv.noConnect [("c", [0]), ("w", [1])]

/-- C5 counterexample: in distributed mode on the canonical config path,
both local files exist beforehand and their contents deserialize, yet a
fetch failing mid-transfer of the config file (delivering 0 bytes)
truncates that file, and the subsequent local branch raises
`json.JSONDecodeError` from `json.load` instead of returning true — the
exception propagates out of `load()` (modelled: `loadChecked` returns
`none`).  The same call with a connection-stage failure returns true,
showing it is the mid-transfer fetch failure that prevents the successful
local load. -/
theorem c5_fetch_failure_counterexample :
    ChessModel.loadChecked demoHash demoParses demoConfigDistributed
        ChessModel.initState "c" "w" (FtpEnv.failDuringConfig [])
        [("c", [0]), ("w", [1])] = none ∧
    demoParses [0] [1] = true ∧
    (ChessModel.loadChecked demoHash demoParses demoConfigDistributed
        ChessModel.initState "c" "w" FtpEnv.noConnect
        [("c", [0]), ("w", [1])]).map LoadResult.ok = some true := by
  refine ⟨by decide, by decide, by decide⟩

/-- C5 amended: the remote fetch's own exception is always swallowed — an
exception escapes `load()` only from deserializing the (existing)
post-fetch local files, never from the fetch itself — and a fetch failure
at the connection stage (before any local file is opened) does not prevent
a successful local load: with both files present beforehand and their
contents deserializing cleanly, `load()` returns true.  A mid-transfer
failure, by contrast, can corrupt a local file so that the local load
raises (see the counterexample). -/
theorem c5_fetch_failure_amended (hash : Bytes → String)
    (parses : Bytes → Bytes → Bool) (cfg : Config) (st : ChessModelState)
    (config_path weight_path : String) (fs : FS) (cb wb : Bytes)
    (_hdist : cfg.model.distributed = true)
    (hcb : fsRead fs config_path = some cb)
    (hwb : fsRead fs weight_path = some wb)
    (hp : parses cb wb = true) (env : FtpEnv) :
    (env = FtpEnv.noConnect →
      (ChessModel.loadChecked hash parses cfg st config_path weight_path
          env fs).map LoadResult.ok = some true) ∧
    (ChessModel.loadChecked hash parses cfg st config_path weight_path env
        fs = none →
      ∃ cb2 wb2,
        fsRead (ChessModel.loadFetchFS cfg config_path weight_path env fs)
          config_path = some cb2 ∧
        fsRead (ChessModel.loadFetchFS cfg config_path weight_path env fs)
          weight_path = some wb2 ∧
        parses cb2 wb2 = false) := by
  constructor
  · intro henv
    subst henv
    simp only [ChessModel.loadChecked, loadFetchFS_noConnect, hcb, hwb]
    simp [hp]
  · intro hnone
    cases h1 : fsRead (ChessModel.loadFetchFS cfg config_path weight_path
        env fs) config_path with
    | none =>
        cases h2 : fsRead (ChessModel.loadFetchFS cfg config_path
            weight_path env fs) weight_path <;>
          simp [ChessModel.loadChecked, h1, h2] at hnone
    | some cb2 =>
        cases h2 : fsRead (ChessModel.loadFetchFS cfg config_path
            weight_path env fs) weight_path with
        | none => simp [ChessModel.loadChecked, h1, h2] at hnone
        | some wb2 =>
            refine ⟨cb2, wb2, rfl, rfl, ?_⟩
            by_contra hp2
            rw [Bool.not_eq_false] at hp2
            simp [ChessModel.loadChecked, h1, h2, hp2] at hnone

/-- C5 amended witness: the theorem instantiated at a concrete distributed
configuration with both files present and parseable, at the
connection-stage failure environment. -/
theorem c5_fetch_failure_amended_witness :
    (FtpEnv.noConnect = FtpEnv.noConnect →
      (ChessModel.loadChecked demoHash demoParses demoConfigDistributed
          ChessModel.initState "c" "w" FtpEnv.noConnect
          [("c", [0]), ("w", [1])]).map LoadResult.ok = some true) ∧
    (ChessModel.loadChecked demoHash demoParses demoConfigDistributed
        ChessModel.initState "c" "w" FtpEnv.noConnect
        [("c", [0]), ("w", [1])] = none →
      ∃ cb2 wb2,
        fsRead (ChessModel.loadFetchFS demoConfigDistributed "c" "w"
          FtpEnv.noConnect [("c", [0]), ("w", [1])]) "c" = some cb2 ∧
        fsRead (ChessModel.loadFetchFS demoConfigDistributed "c" "w"
          FtpEnv.noConnect [("c", [0]), ("w", [1])]) "w" = some wb2 ∧
        demoParses cb2 wb2 = false) :=
  c5_fetch_failure_amended demoHash demoParses demoConfigDistributed
    ChessModel.initState "c" "w" [("c", [0]), ("w", [1])] [0] [1]
    (by decide) (by decide) (by decide) (by decide) FtpEnv.noConnect

/-- C4 counterexample: the claim states the remote sync is attempted only
when BOTH paths equal the canonical best-model paths.  In the code the
guard compares only the config path: with the distributed flag set and the
config path canonical, a load and a save whose weight path differs from the
canonical best-model weight path still attempt the remote transfer. -/
theorem c4_guard_counterexample :
    (ChessModel.load demoHash demoConfigDistributed ChessModel.initState
        "c" "otherweights" FtpEnv.noConnect []).remoteAttempted = true ∧
    "otherweights" ≠
      demoConfigDistributed.resource.model_best_weight_path ∧
    (ChessModel.save demoHash demoConfigDistributed demoState "c"
        "otherweights" []).map SaveResult.remoteAttempted = some true := by
  refine ⟨by decide, by decide, by decide⟩

/-- C4 amended: the remote sync (fetch in `load`, push in `save`) is
attempted exactly when the distributed flag is set AND the requested config
path equals the canonical best-model config path; the weight path is never
consulted by the guard. -/
theorem c4_guard_amended (hash : Bytes → String) (cfg : Config)
    (st : ChessModelState) (config_path weight_path : String) (env : FtpEnv)
    (fs : FS) (m : KerasModel) (hm : st.model = some m) :
    (ChessModel.load hash cfg st config_path weight_path env
        fs).remoteAttempted =
      (cfg.model.distributed &&
        decide (config_path = cfg.resource.model_best_config_path)) ∧
    (ChessModel.save hash cfg st config_path weight_path fs).map
        SaveResult.remoteAttempted =
      some (cfg.model.distributed &&
        decide (config_path = cfg.resource.model_best_config_path)) := by
  constructor
  · rw [ChessModel.load_remoteAttempted]
    rfl
  · simp [ChessModel.save, hm, ChessModel.bestGuard]

/-- C4 amended witness: the guard outcome at concrete inputs, with a
non-canonical weight path. -/
theorem c4_guard_amended_witness :
    (ChessModel.load demoHash demoConfigDistributed demoState "c"
        "otherweights" FtpEnv.noConnect []).remoteAttempted =
      (demoConfigDistributed.model.distributed &&
        decide (("c" : String) =
          demoConfigDistributed.resource.model_best_config_path)) ∧
    (ChessModel.save demoHash demoConfigDistributed demoState "c"
        "otherweights" []).map SaveResult.remoteAttempted =
      some (demoConfigDistributed.model.distributed &&
        decide (("c" : String) =
          demoConfigDistributed.resource.model_best_config_path)) :=
  c4_guard_amended demoHash demoConfigDistributed demoState "c"
    "otherweights" FtpEnv.noConnect [] { graphConfig := [0], weights := [1] }
    (by decide)

/-- C6 counterexample: the claim is quantified over every pair of paths.
When the config path and the weight path alias the same file, the weight
write shadows the architecture write, so after `save` the file at the
config path does not hold the serialized architecture. -/
theorem c6_save_counterexample :
    (ChessModel.save demoHash demoConfig demoState "p" "p" []).map
        (fun r => fsRead r.fs "p") = some (some [1]) ∧
    ¬ ((ChessModel.save demoHash demoConfig demoState "p" "p" []).map
        (fun r => fsRead r.fs "p") = some (some [0])) := by
  refine ⟨by decide, by decide⟩

/-- C6 amended: for every built model and every pair of DISTINCT paths,
`save` unconditionally writes the serialized architecture to the config
path and the weights to the weight path — on any prior filesystem, with no
existence check — and then sets the digest to the hash of the freshly
written weight file. -/
theorem c6_save_amended (hash : Bytes → String) (cfg : Config)
    (st : ChessModelState) (config_path weight_path : String) (fs : FS)
    (m : KerasModel) (hne : config_path ≠ weight_path)
    (hm : st.model = some m) :
    (ChessModel.save hash cfg st config_path weight_path fs).map
        (fun r =>
          (fsRead r.fs config_path, fsRead r.fs weight_path,
            r.state.digest)) =
      some (some m.graphConfig, some m.weights, some (hash m.weights)) := by
  simp [ChessModel.save, hm, ChessModel.fetch_digest, fsRead_fsWrite,
    hne, Ne.symm hne]

/-- C6 amended witness: a concrete save over a filesystem where both files
already exist with different contents; both are overwritten and the digest
updated. -/
theorem c6_save_amended_witness :
    (ChessModel.save demoHash demoConfig demoState "c" "w"
        [("c", [9, 9]), ("w", [8, 8])]).map
        (fun r =>
          (fsRead r.fs "c", fsRead r.fs "w", r.state.digest)) =
      some (some [0], some [1], some (demoHash [1])) :=
  c6_save_amended demoHash demoConfig demoState "c" "w"
    [("c", [9, 9]), ("w", [8, 8])] { graphConfig := [0], weights := [1] }
    (by decide) (by decide)

/-- C10 counterexample: the claim states both local files are opened
(truncated) before the remote retrieval runs, so that after any fetch
attempt reaching the file-opening step files exist at both paths.  In the
code the weight file is only opened after the config retrieval has
completed: a fetch that fails during the config transfer leaves the weight
path nonexistent (here: empty filesystem, fetch truncates the config file
and fails; the weight file still does not exist). -/
theorem c10_fetch_counterexample :
    fsRead (ChessModel.load demoHash demoConfigDistributed
        ChessModel.initState "c" "w" (FtpEnv.failDuringConfig []) []).fs
        "c" = some [] ∧
    fsRead (ChessModel.load demoHash demoConfigDistributed
        ChessModel.initState "c" "w" (FtpEnv.failDuringConfig []) []).fs
        "w" = none := by
  refine ⟨by decide, by decide⟩

/-- C10 amended: when the distributed fetch is attempted and gets past the
connection stage, each local file is truncated immediately before its own
retrieval.  Hence a file exists at the config path regardless of how the
transfer ended; the weight path is touched only once the config retrieval
completed; and on a mid-transfer failure the prior contents are not
restored — the config file holds exactly the bytes delivered before the
failure, and a config-stage failure leaves the weight path unchanged. -/
theorem c10_fetch_amended (hash : Bytes → String) (cfg : Config)
    (st : ChessModelState) (config_path weight_path : String) (env : FtpEnv)
    (fs : FS) (hdist : cfg.model.distributed = true)
    (hcp : config_path = cfg.resource.model_best_config_path)
    (hne : config_path ≠ weight_path) (henv : env ≠ FtpEnv.noConnect) :
    (fsRead (ChessModel.load hash cfg st config_path weight_path env fs).fs
        config_path).isSome ∧
    (∀ got, env = FtpEnv.failDuringConfig got →
      fsRead (ChessModel.load hash cfg st config_path weight_path env
          fs).fs config_path = some got ∧
      fsRead (ChessModel.load hash cfg st config_path weight_path env
          fs).fs weight_path = fsRead fs weight_path) ∧
    (∀ cb got, env = FtpEnv.failDuringWeight cb got →
      fsRead (ChessModel.load hash cfg st config_path weight_path env
          fs).fs config_path = some cb ∧
      fsRead (ChessModel.load hash cfg st config_path weight_path env
          fs).fs weight_path = some got) ∧
    (∀ cb wb, env = FtpEnv.ok cb wb →
      fsRead (ChessModel.load hash cfg st config_path weight_path env
          fs).fs config_path = some cb ∧
      fsRead (ChessModel.load hash cfg st config_path weight_path env
          fs).fs weight_path = some wb) := by
  have hguard : ChessModel.bestGuard cfg config_path = true := by
    simp [ChessModel.bestGuard, hdist, hcp]
  rw [ChessModel.load_fs]
  unfold ChessModel.loadFetchFS
  rw [hguard]
  simp only [if_pos]
  cases env with
  | noConnect => exact absurd rfl henv
  | failDuringConfig got =>
      refine ⟨?_, fun g hg => ?_, fun cb g hg => by simp at hg,
        fun cb wb hg => by simp at hg⟩
      · simp [applyFetch, fsRead_fsWrite]
      · cases hg
        simp [applyFetch, fsRead_fsWrite, hne, Ne.symm hne]
  | failDuringWeight cb got =>
      refine ⟨?_, fun g hg => by simp at hg, fun cb2 g hg => ?_,
        fun cb2 wb hg => by simp at hg⟩
      · simp [applyFetch, fsRead_fsWrite, Ne.symm hne]
      · cases hg
        simp [applyFetch, fsRead_fsWrite, hne, Ne.symm hne]
  | ok cb wb =>
      refine ⟨?_, fun g hg => by simp at hg, fun cb2 g hg => by simp at hg,
        fun cb2 wb2 hg => ?_⟩
      · simp [applyFetch, fsRead_fsWrite, Ne.symm hne]
      · cases hg
        simp [applyFetch, fsRead_fsWrite, hne, Ne.symm hne]

/-- C10 amended witness: a concrete distributed load with a prior config
file, failing during the config retrieval: the config file is truncated to
the delivered bytes and the weight path keeps its prior (absent) status. -/
theorem c10_fetch_amended_witness :
    (fsRead (ChessModel.load demoHash demoConfigDistributed
        ChessModel.initState "c" "w" (FtpEnv.failDuringConfig [7])
        [("c", [9, 9])]).fs "c").isSome ∧
    (∀ got, FtpEnv.failDuringConfig [7] = FtpEnv.failDuringConfig got →
      fsRead (ChessModel.load demoHash demoConfigDistributed
          ChessModel.initState "c" "w" (FtpEnv.failDuringConfig [7])
          [("c", [9, 9])]).fs "c" = some got ∧
      fsRead (ChessModel.load demoHash demoConfigDistributed
          ChessModel.initState "c" "w" (FtpEnv.failDuringConfig [7])
          [("c", [9, 9])]).fs "w" = fsRead [("c", [9, 9])] "w") ∧
    (∀ cb got, FtpEnv.failDuringConfig [7] = FtpEnv.failDuringWeight cb got →
      fsRead (ChessModel.load demoHash demoConfigDistributed
          ChessModel.initState "c" "w" (FtpEnv.failDuringConfig [7])
          [("c", [9, 9])]).fs "c" = some cb ∧
      fsRead (ChessModel.load demoHash demoConfigDistributed
          ChessModel.initState "c" "w" (FtpEnv.failDuringConfig [7])
          [("c", [9, 9])]).fs "w" = some got) ∧
    (∀ cb wb, FtpEnv.failDuringConfig [7] = FtpEnv.ok cb wb →
      fsRead (ChessModel.load demoHash demoConfigDistributed
          ChessModel.initState "c" "w" (FtpEnv.failDuringConfig [7])
          [("c", [9, 9])]).fs "c" = some cb ∧
      fsRead (ChessModel.load demoHash demoConfigDistributed
          ChessModel.initState "c" "w" (FtpEnv.failDuringConfig [7])
          [("c", [9, 9])]).fs "w" = some wb) :=
  c10_fetch_amended demoHash demoConfigDistributed ChessModel.initState
    "c" "w" (FtpEnv.failDuringConfig [7]) [("c", [9, 9])] (by decide)
    (by decide) (by decide) (by simp)

/-- C7 counterexample: the claim is quantified over every pair of paths.
(a) In distributed mode with the canonical config path, `load`'s remote
fetch overwrites the files `save` just wrote (here the remote serves
different bytes), so the reloaded model is not the saved one.  (b) With the
two paths aliased to one file the round trip also fails. -/
theorem c7_roundtrip_counterexample :
    ((ChessModel.save demoHash demoConfigDistributed demoState "c" "w"
        []).map (fun r1 =>
          (ChessModel.load demoHash demoConfigDistributed
            ChessModel.initState "c" "w" (FtpEnv.ok [2] [3])
            r1.fs).state.model) =
      some (some { graphConfig := [2], weights := [3] }) ∧
      ¬ ((ChessModel.save demoHash demoConfigDistributed demoState "c" "w"
          []).map (fun r1 =>
            (ChessModel.load demoHash demoConfigDistributed
              ChessModel.initState "c" "w" (FtpEnv.ok [2] [3])
              r1.fs).state.model) =
        some (some { graphConfig := [0], weights := [1] }))) ∧
    ¬ ((ChessModel.save demoHash demoConfig demoState "p" "p" []).map
        (fun r1 =>
          (ChessModel.load demoHash demoConfig ChessModel.initState "p" "p"
            FtpEnv.noConnect r1.fs).state.model) =
      some (some { graphConfig := [0], weights := [1] })) := by
  refine ⟨⟨by decide, by decide⟩, by decide⟩

/-- C7 amended: for every built model and every pair of DISTINCT paths such
that the remote fetch is not attempted (non-distributed, or a config path
other than the canonical best-model config path), `save(c, w)` followed by
`load(c, w)` on a fresh instance reconstructs exactly the saved model, so
every (deterministic) prediction function yields identical outputs on the
reloaded model and on the original. -/
theorem c7_roundtrip_amended (hash : Bytes → String) (cfg : Config)
    (st : ChessModelState) (config_path weight_path : String) (fs : FS)
    (env : FtpEnv) (m : KerasModel) (hm : st.model = some m)
    (hne : config_path ≠ weight_path)
    (hguard : ChessModel.bestGuard cfg config_path = false) :
    (ChessModel.save hash cfg st config_path weight_path fs).map
        (fun r1 =>
          (ChessModel.load hash cfg ChessModel.initState config_path
            weight_path env r1.fs).state.model) =
      some (some m) ∧
    ∀ (predict : KerasModel → Bytes → Bytes) (input : Bytes),
      (ChessModel.save hash cfg st config_path weight_path fs).map
          (fun r1 =>
            ((ChessModel.load hash cfg ChessModel.initState config_path
                weight_path env r1.fs).state.model).map
              (fun km => predict km input)) =
        some (some (predict m input)) := by
  have hload : ChessModel.load hash cfg ChessModel.initState config_path
      weight_path env (fsWrite (fsWrite fs config_path m.graphConfig)
        weight_path m.weights) =
      { state := { model := some m, digest := some (hash m.weights) }
        fs := fsWrite (fsWrite fs config_path m.graphConfig) weight_path
          m.weights
        ok := true
        remoteAttempted := ChessModel.bestGuard cfg config_path } := by
    have hfetch : ChessModel.loadFetchFS cfg config_path weight_path env
        (fsWrite (fsWrite fs config_path m.graphConfig) weight_path
          m.weights) =
        fsWrite (fsWrite fs config_path m.graphConfig) weight_path
          m.weights := by
      rw [ChessModel.loadFetchFS, hguard]
      simp
    have h1 : fsRead (ChessModel.loadFetchFS cfg config_path weight_path
        env (fsWrite (fsWrite fs config_path m.graphConfig) weight_path
          m.weights)) config_path = some m.graphConfig := by
      rw [hfetch, fsRead_fsWrite, if_neg (Ne.symm hne), fsRead_fsWrite,
        if_pos rfl]
    have h2 : fsRead (ChessModel.loadFetchFS cfg config_path weight_path
        env (fsWrite (fsWrite fs config_path m.graphConfig) weight_path
          m.weights)) weight_path = some m.weights := by
      rw [hfetch, fsRead_fsWrite, if_pos rfl]
    rw [ChessModel.load_eq_of_both hash cfg ChessModel.initState
      config_path weight_path env _ m.graphConfig m.weights h1 h2]
    rw [hfetch]
  refine ⟨?_, fun predict input => ?_⟩ <;>
    simp [ChessModel.save, hm, hload]

/-- C7 amended witness: a concrete non-distributed round trip over distinct
paths reproduces the saved model and its predictions. -/
theorem c7_roundtrip_amended_witness :
    (ChessModel.save demoHash demoConfig demoState "c" "w" []).map
        (fun r1 =>
          (ChessModel.load demoHash demoConfig ChessModel.initState "c" "w"
            FtpEnv.noConnect r1.fs).state.model) =
      some (some { graphConfig := [0], weights := [1] }) ∧
    ∀ (predict : KerasModel → Bytes → Bytes) (input : Bytes),
      (ChessModel.save demoHash demoConfig demoState "c" "w" []).map
          (fun r1 =>
            ((ChessModel.load demoHash demoConfig ChessModel.initState "c"
                "w" FtpEnv.noConnect r1.fs).state.model).map
              (fun km => predict km input)) =
        some (some (predict { graphConfig := [0], weights := [1] }
          input)) :=
  c7_roundtrip_amended demoHash demoConfig demoState "c" "w" []
    FtpEnv.noConnect { graphConfig := [0], weights := [1] } (by decide)
    (by decide) (by decide)

/-! ## Real-valued activation semantics: helper lemmas for C2 -/

theorem list_sum_map_div (l : List ℝ) (c : ℝ) :
    (l.map (fun x => x / c)).sum = l.sum / c := by
  induction l with
  | nil => simp
  | cons a t ih => simp [ih, add_div]

theorem softmax_length (z : List ℝ) : (softmax z).length = z.length := by
  simp [softmax]

theorem exp_sum_pos (z : List ℝ) (hz : z ≠ []) :
    0 < (z.map Real.exp).sum := by
  refine List.sum_pos _ (fun x hx => ?_) (fun h => hz ?_)
  · obtain ⟨t, _, rfl⟩ := List.mem_map.1 hx
    exact Real.exp_pos t
  · simpa using h

theorem softmax_sum_one (z : List ℝ) (hz : z ≠ []) :
    (softmax z).sum = 1 := by
  have hpos := exp_sum_pos z hz
  have hmap : z.map (fun zi => Real.exp zi / (z.map Real.exp).sum) =
      (z.map Real.exp).map (fun x => x / (z.map Real.exp).sum) := by
    simp [List.map_map, Function.comp]
  rw [softmax, hmap, list_sum_map_div, div_self (ne_of_gt hpos)]

theorem softmax_mem_unit_interval (z : List ℝ) (y : ℝ)
    (hy : y ∈ softmax z) : 0 ≤ y ∧ y ≤ 1 := by
  rw [softmax] at hy
  obtain ⟨t, ht, rfl⟩ := List.mem_map.1 hy
  have hz : z ≠ [] := List.ne_nil_of_mem ht
  have hpos := exp_sum_pos z hz
  refine ⟨div_nonneg (Real.exp_pos t).le hpos.le, ?_⟩
  rw [div_le_one hpos]
  refine List.single_le_sum (fun x hx => ?_) _ (List.mem_map_of_mem _ ht)
  obtain ⟨u, _, rfl⟩ := List.mem_map.1 hx
  exact (Real.exp_pos u).le

theorem real_tanh_le_one (x : ℝ) : Real.tanh x ≤ 1 := by
  rw [Real.tanh_eq_sinh_div_cosh]
  exact (div_le_one (Real.cosh_pos x)).mpr (le_of_lt (Real.sinh_lt_cosh x))

theorem neg_one_le_real_tanh (x : ℝ) : -1 ≤ Real.tanh x := by
  have h := real_tanh_le_one (-x)
  rw [Real.tanh_neg] at h
  linarith

/-- C2: for every valid configuration (positive label count), the base
`build()` produces a two-headed graph whose policy output is a dense layer
of width exactly `config.n_labels` with softmax activation and whose value
output is a dense layer of width 1 with tanh activation; moreover the
softmax semantics sends every pre-activation vector of width `n_labels` to
values in [0, 1] summing to 1, preserving the width, and the tanh semantics
always yields values in [-1, 1]. -/
theorem c2_build_heads (cfg : Config) (hn : 0 < cfg.n_labels) :
    ((ChessModel.build cfg).outputs.map KTensor.outLayer =
      [some (Layer.dense cfg.n_labels (some cfg.model.l2_reg)
          Activation.softmax (some "policy_out")),
        some (Layer.dense 1 (some cfg.model.l2_reg) Activation.tanh
          (some "value_out"))]) ∧
    (∀ z : List ℝ, z.length = cfg.n_labels →
      (applyActivation Activation.softmax z).length = cfg.n_labels ∧
      (applyActivation Activation.softmax z).sum = 1 ∧
      ∀ y ∈ applyActivation Activation.softmax z, 0 ≤ y ∧ y ≤ 1) ∧
    (∀ z : List ℝ, ∀ y ∈ applyActivation Activation.tanh z,
      -1 ≤ y ∧ y ≤ 1) := by
  refine ⟨rfl, fun z hlen => ?_, fun z y hy => ?_⟩
  · have hz : z ≠ [] := by
      intro h
      rw [h] at hlen
      simp at hlen
      omega
    exact ⟨by rw [applyActivation, softmax_length, hlen],
      by rw [applyActivation]; exact softmax_sum_one z hz,
      fun y hy => softmax_mem_unit_interval z y hy⟩
  · rw [applyActivation] at hy
    obtain ⟨t, _, rfl⟩ := List.mem_map.1 hy
    exact ⟨neg_one_le_real_tanh t, real_tanh_le_one t⟩

/-- C2 witness: the structural head property instantiated at a concrete
configuration with 1968 labels. -/
theorem c2_build_heads_witness :
    0 < demoConfig.n_labels ∧
    (ChessModel.build demoConfig).outputs.map KTensor.outLayer =
      [some (Layer.dense demoConfig.n_labels
          (some demoConfig.model.l2_reg) Activation.softmax
          (some "policy_out")),
        some (Layer.dense 1 (some demoConfig.model.l2_reg) Activation.tanh
          (some "value_out"))] :=
  ⟨by decide, (c2_build_heads demoConfig (by decide)).1⟩

end ModelChess
